import Mathlib

/-!
Verification development for the `create-alith-app` scaffolding CLI
(`src/bin/create-alith-app.js`).

The development shallowly embeds the scaffolding-and-provisioning engine:

* string helpers modelling the JavaScript string operations the CLI uses
  (`split(' && ')`, `trim()`, `replace(pat, rep)` on a string pattern,
  which replaces only the first occurrence and applies ECMAScript's
  dollar substitution patterns to the replacement string);
* a functional filesystem model (`FS`), with the template materializer
  `createBasicTemplate`, the metadata patch phase `configureProject`,
  and the orchestrator `createApp` / `createProject` translated from the
  source, including an I/O fault oracle (`fails`) standing for thrown
  filesystem errors and their `try`/`catch` handling;
* the fallback installation strategy runner
  (`installDependenciesWithFallback` over the `installMethods` table),
  with an oracle `exec : String → Bool` assigning success or failure to
  each shell command.

Console rendering, interactive prompting and the literal bytes of most
generated files are outside the engine's contract; prompts are modelled
as input parameters and opaque file payloads as abstract constants.  The
`.env.example` payload and the `package.json` structure are modelled with
their real content because the secret patch and the name patch depend on
them.
-/

set_option linter.unusedVariables false

namespace AlithCli

/-! ### JavaScript string operations -/

/-- Test whether the pattern `p` (second argument) is a prefix of the
character list `s` (first argument).  Worker for the JavaScript string
search used by `split` and `replace`. -/
def strStartsWith : List Char → List Char → Bool
  | _, [] => true
  | [], _ :: _ => false
  | c :: s, d :: p => c == d && strStartsWith s p

/-- Fuel-driven worker for `jsSplit`: scans the subject, splitting at each
occurrence of the nonempty separator `sep`, accumulating the current piece
in reverse in `acc`.  Structural recursion on the fuel keeps the function
kernel-reducible; `jsSplit` supplies enough fuel for the whole subject. -/
def jsSplitAux (sep : List Char) : Nat → List Char → List Char → List (List Char)
  | 0, s, acc => [acc.reverse ++ s]
  | _ + 1, [], acc => [acc.reverse]
  | fuel + 1, c :: rest, acc =>
    if strStartsWith (c :: rest) sep then
      acc.reverse :: jsSplitAux sep fuel (List.drop sep.length (c :: rest)) []
    else
      jsSplitAux sep fuel rest (c :: acc)

/-- Model of JavaScript `s.split(sep)` for a nonempty string separator:
splits at every non-overlapping occurrence of `sep`, left to right.  The
CLI only ever splits on `" && "`. -/
def jsSplit (s sep : String) : List String :=
  (jsSplitAux sep.data (s.data.length + 1) s.data []).map (fun l => String.mk l)

/-- Model of JavaScript `s.trim()`: removes leading and trailing
whitespace. -/
def jsTrim (s : String) : String :=
  String.mk (((s.data.dropWhile Char.isWhitespace).reverse.dropWhile
    Char.isWhitespace).reverse)

/-- The backquote character (code point 96), one of the ECMAScript
replacement-pattern introducers. -/
def backquoteChar : Char := Char.ofNat 96

/-- The single-quote character (code point 39), one of the ECMAScript
replacement-pattern introducers. -/
def singleQuoteChar : Char := Char.ofNat 39

/-- ECMAScript `GetSubstitution` for a string-pattern `replace` call (no
capture groups): expand the replacement template, where `$$` yields a
dollar sign, `$&` the matched text, a dollar followed by a backquote the
part of the subject preceding the match, a dollar followed by a quote the
part following it, and any other dollar (including `$n`, since a string
search has no captures) is literal. -/
def getSubstitution (matched pre post : List Char) : List Char → List Char
  | [] => []
  | [c] => [c]
  | c :: d :: rest2 =>
    if c = '$' then
      if d = '$' then d :: getSubstitution matched pre post rest2
      else if d = '&' then matched ++ getSubstitution matched pre post rest2
      else if d = backquoteChar then pre ++ getSubstitution matched pre post rest2
      else if d = singleQuoteChar then post ++ getSubstitution matched pre post rest2
      else c :: getSubstitution matched pre post (d :: rest2)
    else c :: getSubstitution matched pre post (d :: rest2)

/-- Whether a replacement template contains one of the recognized
ECMAScript substitution patterns (`$$`, `$&`, dollar-backquote,
dollar-quote).  When it does not, `getSubstitution` inserts it
literally. -/
def hasDollarPattern : List Char → Bool
  | [] => false
  | [_] => false
  | c :: d :: rest2 =>
    if c = '$' ∧ (d = '$' ∨ d = '&' ∨ d = backquoteChar ∨ d = singleQuoteChar)
    then true
    else hasDollarPattern (d :: rest2)

/-- Fuel-driven worker for `jsReplace`: scans for the first occurrence of
the nonempty pattern `pat`, accumulating the consumed prefix in reverse in
`seen`; at the match it emits the prefix, the expanded replacement
(`getSubstitution`, with the matched text equal to `pat` for a string
search) and the rest of the subject. -/
def jsReplaceAux (pat rep : List Char) : Nat → List Char → List Char → List Char
  | 0, s, seen => seen.reverse ++ s
  | _ + 1, [], seen => seen.reverse
  | fuel + 1, c :: rest, seen =>
    if strStartsWith (c :: rest) pat then
      seen.reverse ++
        getSubstitution pat seen.reverse (List.drop pat.length (c :: rest)) rep ++
        List.drop pat.length (c :: rest)
    else jsReplaceAux pat rep fuel rest (c :: seen)

/-- Model of JavaScript `s.replace(pat, rep)` with a nonempty string
pattern: only the first occurrence of `pat` is replaced, and the
replacement string undergoes ECMAScript dollar-pattern substitution
(`getSubstitution`).  The CLI calls it once, with the literal secret
placeholder as pattern and the user-supplied secret as replacement. -/
def jsReplace (s pat rep : String) : String :=
  String.mk (jsReplaceAux pat.data rep.data (s.data.length + 1) s.data [])

/-- Substring occurrence test on character lists: `hasSub p s` is true
when `p` occurs contiguously inside `s`.  Used to state that a placeholder
token does or does not remain in a generated file. -/
def hasSub (p : List Char) : List Char → Bool
  | [] => strStartsWith [] p
  | c :: s => strStartsWith (c :: s) p || hasSub p s

/-! ### Paths and the filesystem model -/

/-- Model of `path.join(root, rel)` for a relative segment. -/
def pathJoin (root rel : String) : String := root ++ "/" ++ rel

/-- Model of `path.resolve(projectName)`: resolves the (relative) project
name against the current working directory. -/
def resolvePath (cwd name : String) : String := pathJoin cwd name

/-- Structured content of the single package metadata file
(`package.json`).  The `name` field is the one the engine manipulates; all
other top-level fields are opaque template data carried along unchanged
(the spec treats generated file bytes as opaque payloads). -/
structure PkgData where
  name : String
  otherFields : List (String × String)
deriving DecidableEq

/-- Content of a file on disk: either a structured record serialized with
a fixed indent (`fs.writeJson` with its `spaces` option), or plain text
(`fs.writeFile`). -/
inductive Payload
  | structured (data : PkgData) (indent : Nat)
  | text (s : String)
deriving DecidableEq

/-- One filesystem entry: a directory or a file with a payload. -/
inductive FsEntry
  | dir
  | file (p : Payload)
deriving DecidableEq

/-- The filesystem: a partial map from absolute paths to entries. -/
abbrev FS := String → Option FsEntry

/-- The empty filesystem. -/
def emptyFS : FS := fun _ => none

/-- Write (or overwrite) the entry at a path. -/
def fsSet (fs : FS) (p : String) (e : FsEntry) : FS :=
  fun q => if q = p then some e else fs q

/-- Model of `fs.existsSync`: bare existence of any entry at the path,
whatever its kind. -/
def existsSync (fs : FS) (p : String) : Bool := (fs p).isSome

/-- Model of `fs.readJson`: succeeds only on a structured file. -/
def readJsonFile (fs : FS) (p : String) : Option PkgData :=
  match fs p with
  | some (.file (.structured d _)) => some d
  | _ => none

/-- Model of `fs.readFile(p, 'utf8')` on a text file. -/
def readTextFile (fs : FS) (p : String) : Option String :=
  match fs p with
  | some (.file (.text s)) => some s
  | _ => none

/-- Serialization rule of `fs.writeJson(path, data, { spaces: 2 })`:
pretty-printed structured content with a fixed indent of 2.  Both the
materializer and the name patch write the metadata file through this
single rule. -/
def writeJsonEntry (d : PkgData) : FsEntry := .file (.structured d 2)

/-- The filesystem operations that can throw.  The fault oracle `fails`
below decides which of them raise an `IoError` during a run. -/
inductive IoOp
  | ensureDir (path : String)
  | writeFile (path : String)
  | writeJson (path : String)
  | readJson (path : String)
  | readFile (path : String)
deriving DecidableEq

/-- Fault oracle under which no filesystem operation fails. -/
def noFaults : IoOp → Bool := fun _ => false

/-- Fault oracle under which exactly the given operation fails. -/
def failOn (op : IoOp) : IoOp → Bool := fun o => decide (o = op)

/-! ### The template descriptor

From `createBasicTemplate` in the source: the `templateFiles` object maps
relative paths to either a structured record (written via `fs.writeJson`)
or a text payload (written via `fs.writeFile`); `srcFiles` holds the
React source files.  Only the `.env.example` payload and the shape of
`package.json` matter to any claim, so the remaining payload bytes are
abstract constants. -/

/-- One template entry payload. -/
inductive TemplContent
  | json (d : PkgData)
  | text (s : String)
deriving DecidableEq

/-- The top-level `package.json` fields other than `name`, carried as
opaque key/value data (scripts, dependencies and devDependencies bytes
abstracted). -/
def pkgOtherFields : List (String × String) :=
  [("private", "true"),
   ("version", "0.0.0"),
   ("type", "module"),
   ("scripts", "template scripts object, bytes abstracted"),
   ("dependencies", "template dependencies object, bytes abstracted"),
   ("devDependencies", "template devDependencies object, bytes abstracted")]

/-- The secret placeholder token, exactly as in the source. -/
def placeholderTok : String := "your_groq_api_key_here"

/-- The full `.env.example` template payload, exactly as in the source. -/
def envExampleContent : String := "GROQ_API_KEY=your_groq_api_key_here"

/-- Payload of `vite.config.ts` (bytes abstracted). -/
def viteConfigPayload : String := "template payload of vite.config.ts"

/-- Payload of `tsconfig.json` (bytes abstracted). -/
def tsconfigPayload : String := "template payload of tsconfig.json"

/-- Payload of `tailwind.config.js` (bytes abstracted). -/
def tailwindConfigPayload : String := "template payload of tailwind.config.js"

/-- Payload of `postcss.config.mjs` (bytes abstracted). -/
def postcssConfigPayload : String := "template payload of postcss.config.mjs"

/-- Payload of `index.html` (bytes abstracted). -/
def indexHtmlPayload : String := "template payload of index.html"

/-- Payload of `server.js` (bytes abstracted). -/
def serverJsPayload : String := "template payload of server.js"

/-- Payload of `src/main.tsx` (bytes abstracted). -/
def mainTsxPayload : String := "template payload of src/main.tsx"

/-- Payload of `src/App.tsx` (bytes abstracted). -/
def appTsxPayload : String := "template payload of src/App.tsx"

/-- Payload of `src/index.css` (bytes abstracted). -/
def indexCssPayload : String := "template payload of src/index.css"

/-- Payload of `src/App.css` (bytes abstracted). -/
def appCssPayload : String := "template payload of src/App.css"

/-- Payload of `src/components/ChatInterface.tsx` (bytes abstracted). -/
def chatInterfacePayload : String := "template payload of src/components/ChatInterface.tsx"

/-- The `templateFiles` object of `createBasicTemplate`, in declaration
order.  `package.json` is a structured record carrying the project name;
every other entry is text. -/
def templateFiles (projectName : String) : List (String × TemplContent) :=
  [("package.json", .json ⟨projectName, pkgOtherFields⟩),
   ("vite.config.ts", .text viteConfigPayload),
   ("tsconfig.json", .text tsconfigPayload),
   ("tailwind.config.js", .text tailwindConfigPayload),
   ("postcss.config.mjs", .text postcssConfigPayload),
   (".env.example", .text envExampleContent),
   ("index.html", .text indexHtmlPayload),
   ("server.js", .text serverJsPayload)]

/-- The `srcFiles` object of `createBasicTemplate`, in declaration
order. -/
def srcFiles : List (String × TemplContent) :=
  [("src/main.tsx", .text mainTsxPayload),
   ("src/App.tsx", .text appTsxPayload),
   ("src/index.css", .text indexCssPayload),
   ("src/App.css", .text appCssPayload),
   ("src/components/ChatInterface.tsx", .text chatInterfacePayload)]

/-! ### The materializer -/

/-- One write performed by the materializer: a directory creation, a
structured-JSON write, or a text write. -/
inductive WriteStep
  | mkdir (path : String)
  | putJson (path : String) (data : PkgData)
  | putText (path : String) (content : String)
deriving DecidableEq

/-- Target path of a write step. -/
def WriteStep.path : WriteStep → String
  | .mkdir p => p
  | .putJson p _ => p
  | .putText p _ => p

/-- Root-independent content of a write step, for comparing two
materialization runs modulo their root paths. -/
inductive StepContent
  | dirMark
  | jsonData (d : PkgData)
  | textData (s : String)
deriving DecidableEq

/-- Content carried by a write step. -/
def WriteStep.content : WriteStep → StepContent
  | .mkdir _ => .dirMark
  | .putJson _ d => .jsonData d
  | .putText _ s => .textData s

/-- Filesystem operation performed by a write step (for the fault
oracle). -/
def WriteStep.op : WriteStep → IoOp
  | .mkdir p => .ensureDir p
  | .putJson p _ => .writeJson p
  | .putText p _ => .writeFile p

/-- Apply one write step to the filesystem. -/
def applyStep (fs : FS) : WriteStep → FS
  | .mkdir p => fsSet fs p .dir
  | .putJson p d => fsSet fs p (writeJsonEntry d)
  | .putText p s => fsSet fs p (.file (.text s))

/-- Run write steps in order; the first failing operation aborts the
remainder, leaving earlier writes in place (no rollback). -/
def runSteps (fails : IoOp → Bool) : FS → List WriteStep → FS × Bool
  | fs, [] => (fs, true)
  | fs, s :: rest =>
    if fails s.op then (fs, false)
    else runSteps fails (applyStep fs s) rest

/-- Turn a template entry into the write step the source performs for it:
`fs.writeJson(path.join(projectPath, p), content, { spaces: 2 })` for
objects, `fs.writeFile(path.join(projectPath, p), content)` for text. -/
def stepOfEntry (root : String) : String × TemplContent → WriteStep
  | (p, .json d) => .putJson (pathJoin root p) d
  | (p, .text s) => .putText (pathJoin root p) s

/-- The full ordered write sequence of `createBasicTemplate`: create
`src/`, write `templateFiles` in order, create `src/components/`, write
`srcFiles` in order. -/
def templateSteps (projectPath projectName : String) : List WriteStep :=
  (WriteStep.mkdir (pathJoin projectPath "src") ::
    (templateFiles projectName).map (stepOfEntry projectPath))
  ++ (WriteStep.mkdir (pathJoin projectPath "src/components") ::
    srcFiles.map (stepOfEntry projectPath))

/-- Model of `createBasicTemplate(projectPath, projectName)`: materialize
the template descriptor under the project root, in descriptor order. -/
def createBasicTemplate (fails : IoOp → Bool) (fs : FS)
    (projectPath projectName : String) : FS × Bool :=
  runSteps fails fs (templateSteps projectPath projectName)

/-- The descriptor-declared relative paths, in write order. -/
def templateRelPaths : List String :=
  ["src", "package.json", "vite.config.ts", "tsconfig.json",
   "tailwind.config.js", "postcss.config.mjs", ".env.example", "index.html",
   "server.js", "src/components", "src/main.tsx", "src/App.tsx",
   "src/index.css", "src/App.css", "src/components/ChatInterface.tsx"]

/-! ### The installation strategy runner -/

/-- One entry of the `installMethods` strategy table. -/
structure InstallMethod where
  name : String
  command : String
  description : String
deriving DecidableEq

/-- The `installMethods` table of `installDependenciesWithFallback`,
exactly in source order. -/
def installMethods : List InstallMethod :=
  [⟨"Standard npm install",
    "npm install",
    "Using standard npm installation"⟩,
   ⟨"Clean install with cache clear",
    "npm cache clean --force && npm install",
    "Clearing cache and reinstalling"⟩,
   ⟨"Registry reset with clean install",
    "npm config set registry https://registry.npmjs.org/ && npm cache clean --force && npm install",
    "Resetting registry and cache"⟩,
   ⟨"CI clean install",
    "npm ci",
    "Using npm ci for clean install"⟩,
   ⟨"Legacy peer deps install",
    "npm install --legacy-peer-deps",
    "Installing with legacy peer dependencies"⟩,
   ⟨"Force install",
    "npm install --force",
    "Force installing all packages"⟩]

/-- Model of `method.command.split(' && ')` followed by `cmd.trim()` on
each piece: the command sequence of one strategy. -/
def splitCommands (command : String) : List String :=
  (jsSplit command " && ").map jsTrim

/-- Execute the commands of one strategy in order, each via
`execSync(cmd, { cwd })`.  Returns whether the whole chain completed
without error, together with the `(command, cwd)` pairs actually
executed: the first failing command is executed (and throws), the
remainder of the chain is not. -/
def runCommands (exec : String → Bool) (cwd : String) :
    List String → Bool × List (String × String)
  | [] => (true, [])
  | c :: rest =>
    if exec c then
      let r := runCommands exec cwd rest
      (r.1, (c, cwd) :: r.2)
    else (false, [(c, cwd)])

/-- Per-strategy outcome recorded by the runner (the spinner
success/failure notice emitted for each attempted strategy), with the
commands that actually ran. -/
structure Attempt where
  method : InstallMethod
  succeeded : Bool
  execs : List (String × String)
deriving DecidableEq

/-- The attempt record produced for one strategy. -/
def attemptOf (exec : String → Bool) (cwd : String) (m : InstallMethod) : Attempt :=
  let r := runCommands exec cwd (splitCommands m.command)
  ⟨m, r.1, r.2⟩

/-- Whether every command of a list succeeds under the oracle. -/
def allCommandsSucceed (exec : String → Bool) : List String → Bool
  | [] => true
  | c :: rest => exec c && allCommandsSucceed exec rest

/-- Whether a strategy's full command sequence completes without error. -/
def methodSucceeds (exec : String → Bool) (m : InstallMethod) : Bool :=
  allCommandsSucceed exec (splitCommands m.command)

/-- The strategy loop of `installDependenciesWithFallback`: try each
strategy in table order; on the first whose full chain succeeds, return
`true` at once (recording that successful attempt last); otherwise record
the failure and continue.  When every strategy fails the loop returns
`false`. -/
def runMethods (exec : String → Bool) (cwd : String) :
    List InstallMethod → Bool × List Attempt
  | [] => (false, [])
  | m :: rest =>
    let r := runCommands exec cwd (splitCommands m.command)
    if r.1 then (true, [⟨m, true, r.2⟩])
    else
      let res := runMethods exec cwd rest
      (res.1, ⟨m, false, r.2⟩ :: res.2)

/-- Model of `installDependenciesWithFallback(projectPath, ...)`: run the
fixed strategy table against the project directory. -/
def installDependenciesWithFallback (exec : String → Bool)
    (projectPath : String) : Bool × List Attempt :=
  runMethods exec projectPath installMethods

/-! ### The orchestrator -/

/-- Terminal outcome of a run: a fatal `process.exit`, a fully successful
auto-installed run, or the manual-steps (soft-success) report. -/
inductive Outcome
  | fatalExit (code : Nat)
  | installed
  | manualSteps
deriving DecidableEq

/-- Observable result of a run: terminal outcome, final filesystem,
whether the secret prompt was reached, and the install attempt log. -/
structure RunResult where
  outcome : Outcome
  fs : FS
  secretPrompted : Bool
  attempts : List Attempt

/-- The `Configuring project...` phase of `createProject` (one
`try`/`catch`): re-read `package.json`, overwrite its `name` field,
rewrite it with the same `{ spaces: 2 }` serialization; then, if a secret
was supplied and `.env.example` exists, read it, replace the placeholder
and write the result to a separate `.env` file.  Any operation failing
anywhere in this phase makes the whole phase fail (the shared `catch`),
while a missing `.env.example` is silently skipped. -/
def configureProject (fails : IoOp → Bool) (fs : FS)
    (projectPath projectName : String) (apiKey : Option String) : FS × Bool :=
  let pkgPath := pathJoin projectPath "package.json"
  if fails (.readJson pkgPath) then (fs, false)
  else
    match readJsonFile fs pkgPath with
    | none => (fs, false)
    | some d =>
      if fails (.writeJson pkgPath) then (fs, false)
      else
        let fs1 := fsSet fs pkgPath (writeJsonEntry ⟨projectName, d.otherFields⟩)
        match apiKey with
        | none => (fs1, true)
        | some key =>
          let envPath := pathJoin projectPath ".env"
          let envExamplePath := pathJoin projectPath ".env.example"
          if existsSync fs1 envExamplePath then
            if fails (.readFile envExamplePath) then (fs1, false)
            else
              match readTextFile fs1 envExamplePath with
              | none => (fs1, false)
              | some content =>
                let resolved := jsReplace content "your_groq_api_key_here" key
                if fails (.writeFile envPath) then (fs1, false)
                else (fsSet fs1 envPath (.file (.text resolved)), true)
          else (fs1, true)

/-- Model of `createProject(projectPath, projectName, apiKeyResponse)`:
create the project directory, materialize the template, run the
metadata-patch phase, then (if opted in) the installation runner.  Each
failed phase is fatal (`process.exit(1)`), while a failed installation
downgrades to the manual-steps report. -/
def createProject (fails : IoOp → Bool) (fs : FS)
    (projectPath projectName : String) (apiKey : Option String)
    (installChoice : Bool) (exec : String → Bool) : RunResult :=
  if fails (.ensureDir projectPath) then ⟨.fatalExit 1, fs, true, []⟩
  else
    let fs1 := fsSet fs projectPath .dir
    match createBasicTemplate fails fs1 projectPath projectName with
    | (fs2, false) => ⟨.fatalExit 1, fs2, true, []⟩
    | (fs2, true) =>
      match configureProject fails fs2 projectPath projectName apiKey with
      | (fs3, false) => ⟨.fatalExit 1, fs3, true, []⟩
      | (fs3, true) =>
        if installChoice then
          match installDependenciesWithFallback exec projectPath with
          | (true, atts) => ⟨.installed, fs3, true, atts⟩
          | (false, atts) => ⟨.manualSteps, fs3, true, atts⟩
        else ⟨.manualSteps, fs3, true, []⟩

/-- Model of `createApp(projectName, options)` from the point where the
project name has been validated (name prompting and validation are
collaborator concerns): resolve the project path, abort with exit code 1
if any entry already exists there, otherwise prompt for the secret
(`secretPrompted`) and hand over to `createProject`. -/
def createApp (fs : FS) (cwd projectName : String) (apiKey : Option String)
    (installChoice : Bool) (exec : String → Bool) (fails : IoOp → Bool) :
    RunResult :=
  let projectPath := resolvePath cwd projectName
  if existsSync fs projectPath then ⟨.fatalExit 1, fs, false, []⟩
  else createProject fails fs projectPath projectName apiKey installChoice exec

/-! ### Helper lemmas -/

/-- Left cancellation for string append. -/
theorem strAppend_cancel {r a b : String} (h : r ++ a = r ++ b) : a = b := by
  apply String.ext
  have h2 := congrArg String.data h
  rw [String.data_append, String.data_append] at h2
  exact List.append_cancel_left h2

/-- Joining two relative names under the same root gives equal paths
exactly when the names are equal. -/
@[simp] theorem pathJoin_eq_iff {r a b : String} :
    pathJoin r a = pathJoin r b ↔ a = b := by
  constructor
  · intro h
    exact strAppend_cancel h
  · intro h
    rw [h]

/-- A joined path is never the bare root. -/
@[simp] theorem pathJoin_ne_base {r a : String} : ¬ (pathJoin r a = r) := by
  intro h
  have h2 := congrArg String.data h
  rw [pathJoin] at h2
  rw [String.data_append, String.data_append] at h2
  have h3 := congrArg List.length h2
  simp [List.length_append] at h3

/-- The success flag of a command chain does not depend on the working
directory: it is exactly `allCommandsSucceed`. -/
theorem runCommands_fst (exec : String → Bool) (cwd : String)
    (cmds : List String) :
    (runCommands exec cwd cmds).1 = allCommandsSucceed exec cmds := by
  induction cmds with
  | nil => rfl
  | cons c rest ih =>
    cases hc : exec c <;> simp [runCommands, allCommandsSucceed, hc, ih]

/-- When every strategy of a table fails, the loop returns `false` with
one attempt record per strategy, in table order. -/
theorem runMethods_allFailed (exec : String → Bool) (cwd : String)
    (table : List InstallMethod)
    (h : ∀ m ∈ table, methodSucceeds exec m = false) :
    runMethods exec cwd table = (false, table.map (attemptOf exec cwd)) := by
  induction table with
  | nil => rfl
  | cons m rest ih =>
    have hm : (runCommands exec cwd (splitCommands m.command)).1 = false := by
      rw [runCommands_fst]
      exact h m (by simp)
    have ih2 := ih (fun x hx => h x (by simp [hx]))
    simp [runMethods, hm, ih2, attemptOf]

/-- When the first `i` strategies fail and strategy `i` succeeds, the loop
returns `true` with exactly the first `i` failure records followed by the
success record of strategy `i`. -/
theorem runMethods_firstSuccess (exec : String → Bool) (cwd : String) :
    ∀ (table : List InstallMethod) (i : Nat) (hi : i < table.length),
    (∀ m ∈ table.take i, methodSucceeds exec m = false) →
    methodSucceeds exec (table.get ⟨i, hi⟩) = true →
    runMethods exec cwd table =
      (true, (table.take i).map (attemptOf exec cwd) ++
        [attemptOf exec cwd (table.get ⟨i, hi⟩)]) := by
  intro table
  induction table with
  | nil => intro i hi _ _; simp at hi
  | cons m rest ih =>
    intro i hi hfail hsucc
    cases i with
    | zero =>
      have hm : (runCommands exec cwd (splitCommands m.command)).1 = true := by
        rw [runCommands_fst]
        simpa [methodSucceeds] using hsucc
      simp [runMethods, hm, attemptOf]
    | succ j =>
      have hm : (runCommands exec cwd (splitCommands m.command)).1 = false := by
        rw [runCommands_fst]
        exact hfail m (by simp)
      have hj : j < rest.length := by simpa using hi
      have ih2 := ih j hj (fun x hx => hfail x (by simp [hx]))
        (by simpa using hsucc)
      simp [runMethods, hm, ih2, attemptOf]

/-- Within one command chain, if the commands before position `k` succeed
and the command at `k` fails, the chain fails and exactly the first
`k + 1` commands are executed, each in the given working directory. -/
theorem runCommands_abort (exec : String → Bool) (cwd : String) :
    ∀ (cmds : List String) (k : Nat) (hk : k < cmds.length),
    (∀ c ∈ cmds.take k, exec c = true) →
    exec (cmds.get ⟨k, hk⟩) = false →
    runCommands exec cwd cmds =
      (false, (cmds.take (k + 1)).map (fun c => (c, cwd))) := by
  intro cmds
  induction cmds with
  | nil => intro k hk _ _; simp at hk
  | cons c rest ih =>
    intro k hk hpre hfail
    cases k with
    | zero =>
      have hc : exec c = false := by simpa using hfail
      simp [runCommands, hc]
    | succ j =>
      have hc : exec c = true := hpre c (by simp)
      have hj : j < rest.length := by simpa using hk
      have ih2 := ih j hj (fun x hx => hpre x (by simp [hx]))
        (by simpa using hfail)
      simp [runCommands, hc, ih2]

/-- A replacement template with no dollar substitution pattern is
inserted literally by `getSubstitution`. -/
theorem getSubstitution_literal (matched pre post : List Char) :
    ∀ (rep : List Char), hasDollarPattern rep = false →
      getSubstitution matched pre post rep = rep := by
  intro rep
  induction rep with
  | nil => intro _; rfl
  | cons c rest ih =>
    cases rest with
    | nil => intro _; rfl
    | cons d rest2 =>
      intro h
      simp only [hasDollarPattern] at h
      by_cases hcd : c = '$' ∧
        (d = '$' ∨ d = '&' ∨ d = backquoteChar ∨ d = singleQuoteChar)
      · rw [if_pos hcd] at h
        simp at h
      · rw [if_neg hcd] at h
        have ih2 := ih h
        by_cases hc : c = '$'
        · have hd2 := (not_and.mp hcd) hc
          rw [not_or, not_or, not_or] at hd2
          obtain ⟨h1, h2, h3, h4⟩ := hd2
          simp only [getSubstitution, if_pos hc, if_neg h1, if_neg h2,
            if_neg h3, if_neg h4, ih2]
        · simp only [getSubstitution, if_neg hc, ih2]

/-- Replacing the placeholder in the `.env.example` payload by a secret
that contains no dollar substitution pattern yields the prefix
`GROQ_API_KEY=` followed by the secret itself. -/
theorem envReplace_eq (k : String) (h : hasDollarPattern k.data = false) :
    jsReplace envExampleContent "your_groq_api_key_here" k =
      "GROQ_API_KEY=" ++ k := by
  apply String.ext
  rw [String.data_append]
  rw [show (jsReplace envExampleContent "your_groq_api_key_here" k).data =
      (("GROQ_API_KEY=" : String).data ++ getSubstitution
        ("your_groq_api_key_here" : String).data
        ("GROQ_API_KEY=" : String).data [] k.data) ++ [] from rfl]
  rw [List.append_nil,
    getSubstitution_literal ("your_groq_api_key_here" : String).data
      ("GROQ_API_KEY=" : String).data [] k.data h]

/-- A pattern whose first character occurs nowhere in `pre` cannot occur
in `pre ++ s` unless it occurs in `s`. -/
theorem hasSub_append_of_head (ch : Char) (tl pre s : List Char)
    (hpre : ∀ c ∈ pre, ¬ (c = ch)) (hs : hasSub (ch :: tl) s = false) :
    hasSub (ch :: tl) (pre ++ s) = false := by
  induction pre with
  | nil => simpa using hs
  | cons c cs ih =>
    have hc : ¬ (c = ch) := hpre c (by simp)
    have ih2 := ih (fun x hx => hpre x (by simp [hx]))
    simp [hasSub, strStartsWith, hc, ih2]

/-! ### Claim theorems -/

/-- C1: for every strategy table and every assignment of success/failure
to commands, the runner attempts strategies strictly in table order, and
on the first strategy whose full command sequence completes without error
it stops at once and reports success for that strategy: the attempt log
is exactly the failures of the earlier strategies, in order, followed by
the success record of the winning strategy — strategies after it are
never attempted. -/
theorem firstSuccess_stops (exec : String → Bool) (cwd : String)
    (table : List InstallMethod) (i : Nat) (hi : i < table.length)
    (hfail : ∀ m ∈ table.take i, methodSucceeds exec m = false)
    (hsucc : methodSucceeds exec (table.get ⟨i, hi⟩) = true) :
    runMethods exec cwd table =
      (true, (table.take i).map (attemptOf exec cwd) ++
        [attemptOf exec cwd (table.get ⟨i, hi⟩)]) :=
  runMethods_firstSuccess exec cwd table i hi hfail hsucc

/-- Witness for C1: with every command succeeding, the real strategy
table stops at its first strategy. -/
theorem firstSuccess_stops_witness :
    (∀ m ∈ installMethods.take 0, methodSucceeds (fun _ => true) m = false) ∧
    methodSucceeds (fun _ => true) (installMethods.get ⟨0, by decide⟩) = true ∧
    runMethods (fun _ => true) "/proj" installMethods =
      (true, (installMethods.take 0).map (attemptOf (fun _ => true) "/proj") ++
        [attemptOf (fun _ => true) "/proj" (installMethods.get ⟨0, by decide⟩)]) :=
  ⟨by decide, by decide,
    firstSuccess_stops (fun _ => true) "/proj" installMethods 0 (by decide)
      (by decide) (by decide)⟩

/-- C2: when any filesystem entry already exists at the resolved project
path, the run fails fatally with exit code 1 and the filesystem is left
completely untouched: nothing is written, merged or overwritten. -/
theorem alreadyExists_fatal (fs : FS) (cwd n : String) (key : Option String)
    (install : Bool) (exec : String → Bool) (fails : IoOp → Bool)
    (h : existsSync fs (resolvePath cwd n) = true) :
    (createApp fs cwd n key install exec fails).outcome = .fatalExit 1 ∧
    (createApp fs cwd n key install exec fails).fs = fs := by
  simp [createApp, h]

/-- Witness for C2: a pre-existing directory at the resolved project path
aborts the run with exit code 1 and no writes. -/
theorem alreadyExists_fatal_witness :
    existsSync (fun q => if q = resolvePath "/w" "existing" then
      some FsEntry.dir else none) (resolvePath "/w" "existing") = true ∧
    (createApp (fun q => if q = resolvePath "/w" "existing" then
        some FsEntry.dir else none) "/w" "existing" none true (fun _ => true)
        noFaults).outcome = .fatalExit 1 ∧
    (createApp (fun q => if q = resolvePath "/w" "existing" then
        some FsEntry.dir else none) "/w" "existing" none true (fun _ => true)
        noFaults).fs =
      (fun q => if q = resolvePath "/w" "existing" then
        some FsEntry.dir else none) :=
  ⟨by decide,
    (alreadyExists_fatal _ "/w" "existing" none true (fun _ => true) noFaults
      (by decide)).1,
    (alreadyExists_fatal _ "/w" "existing" none true (fun _ => true) noFaults
      (by decide)).2⟩

/-- C5: when every strategy in the table fails, the runner returns the
all-failed outcome with one attempt record per strategy of the table, in
table order (so the log length equals the table length); for the calling
process this outcome is not fatal — the orchestrator downgrades it to the
manual-steps report instead of exiting. -/
theorem allFailed_full_log (exec : String → Bool) (cwd : String)
    (table : List InstallMethod)
    (h : ∀ m ∈ table, methodSucceeds exec m = false) :
    runMethods exec cwd table = (false, table.map (attemptOf exec cwd)) ∧
    (∀ (fs : FS) (cwd2 n : String) (key : Option String),
      existsSync fs (resolvePath cwd2 n) = false →
      (∀ m ∈ installMethods, methodSucceeds exec m = false) →
      (createApp fs cwd2 n key true exec noFaults).outcome =
        Outcome.manualSteps) := by
  refine ⟨runMethods_allFailed exec cwd table h, ?_⟩
  intro fs cwd2 n key hex h2
  have hr := runMethods_allFailed exec (pathJoin cwd2 n) installMethods h2
  simp [existsSync, resolvePath] at hex
  cases key <;>
    simp [createApp, createProject, createBasicTemplate, runSteps,
      templateSteps, templateFiles, srcFiles, stepOfEntry, applyStep,
      configureProject, readJsonFile, readTextFile, fsSet, existsSync,
      noFaults, resolvePath, writeJsonEntry,
      installDependenciesWithFallback, hr, hex]

/-- Witness for C5: with every command failing, the real strategy table
produces a six-entry failure log and the run ends in the manual-steps
report. -/
theorem allFailed_full_log_witness :
    (∀ m ∈ installMethods, methodSucceeds (fun _ => false) m = false) ∧
    runMethods (fun _ => false) "/w/app" installMethods =
      (false, installMethods.map (attemptOf (fun _ => false) "/w/app")) ∧
    existsSync emptyFS (resolvePath "/w" "app") = false ∧
    (createApp emptyFS "/w" "app" none true (fun _ => false)
        noFaults).outcome = Outcome.manualSteps :=
  ⟨by decide,
    (allFailed_full_log (fun _ => false) "/w/app" installMethods
      (by decide)).1,
    by decide,
    (allFailed_full_log (fun _ => false) "/w/app" installMethods
      (by decide)).2 emptyFS "/w" "app" none (by decide) (by decide)⟩

/-- C6: within one strategy, the commands of its sequence are executed one
after another, each in the same working directory; the first failing
command is the last one executed (the rest of the chain is aborted) and
the strategy as a whole fails. -/
theorem chain_abort (exec : String → Bool) (cwd : String) (m : InstallMethod)
    (k : Nat) (hk : k < (splitCommands m.command).length)
    (hpre : ∀ c ∈ (splitCommands m.command).take k, exec c = true)
    (hfail : exec ((splitCommands m.command).get ⟨k, hk⟩) = false) :
    runCommands exec cwd (splitCommands m.command) =
      (false, ((splitCommands m.command).take (k + 1)).map
        (fun c => (c, cwd))) :=
  runCommands_abort exec cwd (splitCommands m.command) k hk hpre hfail

/-- Witness for C6: in the cache-clear strategy, when the cache clean
succeeds and `npm install` fails, exactly the two commands run (both in
the project directory) and the strategy fails. -/
theorem chain_abort_witness :
    1 < (splitCommands "npm cache clean --force && npm install").length ∧
    (∀ c ∈ (splitCommands "npm cache clean --force && npm install").take 1,
      (fun x => decide (x = "npm cache clean --force")) c = true) ∧
    runCommands (fun x => decide (x = "npm cache clean --force")) "/proj"
        (splitCommands "npm cache clean --force && npm install") =
      (false, ((splitCommands "npm cache clean --force && npm install").take 2).map
        (fun c => (c, "/proj"))) :=
  ⟨by decide, by decide,
    chain_abort (fun x => decide (x = "npm cache clean --force")) "/proj"
      ⟨"Clean install with cache clear",
       "npm cache clean --force && npm install",
       "Clearing cache and reinstalling"⟩ 1 (by decide) (by decide) (by decide)⟩

/-- C8: materialization is deterministic — run against two distinct roots
with the same project name, the write sequences carry identical contents
in identical (descriptor-declared) order, and their target paths are the
same relative paths joined under the respective roots. -/
theorem materialize_deterministic (n r1 r2 : String) (hne : r1 ≠ r2) :
    (templateSteps r1 n).map WriteStep.content =
      (templateSteps r2 n).map WriteStep.content ∧
    (templateSteps r1 n).map WriteStep.path =
      templateRelPaths.map (pathJoin r1) ∧
    (templateSteps r2 n).map WriteStep.path =
      templateRelPaths.map (pathJoin r2) :=
  ⟨rfl, rfl, rfl⟩

/-- Witness for C8 at two concrete distinct roots. -/
theorem materialize_deterministic_witness :
    ("/a" : String) ≠ "/b" ∧
    ((templateSteps "/a" "demo").map WriteStep.content =
      (templateSteps "/b" "demo").map WriteStep.content ∧
    (templateSteps "/a" "demo").map WriteStep.path =
      templateRelPaths.map (pathJoin "/a") ∧
    (templateSteps "/b" "demo").map WriteStep.path =
      templateRelPaths.map (pathJoin "/b")) :=
  ⟨by decide, materialize_deterministic "demo" "/a" "/b" (by decide)⟩

/-- C9: the pre-materialization check is on bare path existence — any
entry at the resolved project path, of whatever kind (a regular file as
much as a directory), makes the run abort fatally with exit code 1 before
the secret is prompted for and before anything is written. -/
theorem existsCheck_bare_existence (fs : FS) (cwd n : String) (e : FsEntry)
    (key : Option String) (install : Bool) (exec : String → Bool)
    (fails : IoOp → Bool) (h : fs (resolvePath cwd n) = some e) :
    (createApp fs cwd n key install exec fails).outcome = .fatalExit 1 ∧
    (createApp fs cwd n key install exec fails).secretPrompted = false ∧
    (createApp fs cwd n key install exec fails).fs = fs := by
  simp [createApp, existsSync, h]

/-- Witness for C9: a plain regular file at the resolved project path
aborts the run before the secret prompt, with no writes. -/
theorem existsCheck_bare_existence_witness :
    (fun q => if q = resolvePath "/w" "app" then
        some (FsEntry.file (.text "stray bytes")) else none)
      (resolvePath "/w" "app") = some (FsEntry.file (.text "stray bytes")) ∧
    ((createApp (fun q => if q = resolvePath "/w" "app" then
        some (FsEntry.file (.text "stray bytes")) else none) "/w" "app"
        (some "sk") true (fun _ => true) noFaults).outcome = .fatalExit 1 ∧
    (createApp (fun q => if q = resolvePath "/w" "app" then
        some (FsEntry.file (.text "stray bytes")) else none) "/w" "app"
        (some "sk") true (fun _ => true) noFaults).secretPrompted = false) :=
  ⟨by decide,
    (existsCheck_bare_existence _ "/w" "app" (FsEntry.file (.text "stray bytes"))
      (some "sk") true (fun _ => true) noFaults (by decide)).1,
    (existsCheck_bare_existence _ "/w" "app" (FsEntry.file (.text "stray bytes"))
      (some "sk") true (fun _ => true) noFaults (by decide)).2.1⟩

/-- C3 counterexample: the claim says a failure of the secret patch is
non-fatal and the run continues; in the code the secret patch shares the
name patch's `catch` (which calls `process.exit(1)`), so with the write of
`.env` failing the run exits fatally — while the identical run without
that fault continues to the manual-steps report. -/
theorem secretPatch_failure_fatal_cex :
    (createApp emptyFS "/w" "app" (some "sk-test") false (fun _ => false)
        (failOn (.writeFile (pathJoin (resolvePath "/w" "app") ".env")))).outcome =
      Outcome.fatalExit 1 ∧
    (createApp emptyFS "/w" "app" (some "sk-test") false (fun _ => false)
        noFaults).outcome = Outcome.manualSteps := by
  constructor
  · decide
  · decide

/-- C3 (amended): an `IoError` raised by any operation of the
metadata-patch phase — re-reading the metadata file, rewriting its `name`
field, reading the secret template, or writing the secret file — makes
the phase fail, and a failed metadata-patch phase is fatal (the process
exits non-zero), because both patches share one error handler; only the
absence of the secret-template file is non-fatal — the secret patch is
then silently skipped and the phase succeeds with just the name
patched. -/
theorem metadataPatch_fatality (cwd n k : String) (key : Option String)
    (install : Bool) (exec : String → Bool) :
    ((createApp emptyFS cwd n key install exec
        (failOn (.readJson (pathJoin (resolvePath cwd n) "package.json")))).outcome =
      Outcome.fatalExit 1) ∧
    (∀ (fails : IoOp → Bool) (fs : FS) (d : PkgData),
      fails (.readJson (pathJoin (resolvePath cwd n) "package.json")) = false →
      fails (.writeJson (pathJoin (resolvePath cwd n) "package.json")) = true →
      fs (pathJoin (resolvePath cwd n) "package.json") =
        some (.file (.structured d 2)) →
      configureProject fails fs (resolvePath cwd n) n key = (fs, false)) ∧
    (∀ (fails : IoOp → Bool) (fs : FS) (d : PkgData),
      fails (.readJson (pathJoin (resolvePath cwd n) "package.json")) = false →
      fails (.writeJson (pathJoin (resolvePath cwd n) "package.json")) = false →
      fails (.readFile (pathJoin (resolvePath cwd n) ".env.example")) = true →
      fs (pathJoin (resolvePath cwd n) "package.json") =
        some (.file (.structured d 2)) →
      (fs (pathJoin (resolvePath cwd n) ".env.example")).isSome = true →
      configureProject fails fs (resolvePath cwd n) n (some k) =
        (fsSet fs (pathJoin (resolvePath cwd n) "package.json")
          (writeJsonEntry ⟨n, d.otherFields⟩), false)) ∧
    ((createApp emptyFS cwd n (some k) install exec
        (failOn (.writeFile (pathJoin (resolvePath cwd n) ".env")))).outcome =
      Outcome.fatalExit 1) ∧
    (∀ (fails : IoOp → Bool) (fs0 : FS),
      fails (.ensureDir (resolvePath cwd n)) = false →
      (createBasicTemplate fails (fsSet fs0 (resolvePath cwd n) .dir)
        (resolvePath cwd n) n).2 = true →
      (configureProject fails
        (createBasicTemplate fails (fsSet fs0 (resolvePath cwd n) .dir)
          (resolvePath cwd n) n).1 (resolvePath cwd n) n key).2 = false →
      (createProject fails fs0 (resolvePath cwd n) n key install exec).outcome =
        Outcome.fatalExit 1) ∧
    (∀ (fs : FS) (d : PkgData),
      fs (pathJoin (resolvePath cwd n) "package.json") =
        some (.file (.structured d 2)) →
      fs (pathJoin (resolvePath cwd n) ".env.example") = none →
      configureProject noFaults fs (resolvePath cwd n) n (some k) =
        (fsSet fs (pathJoin (resolvePath cwd n) "package.json")
          (writeJsonEntry ⟨n, d.otherFields⟩), true)) := by
  refine ⟨?_, ?_, ?_, ?_, ?_, ?_⟩
  · simp [createApp, createProject, createBasicTemplate, runSteps,
      templateSteps, templateFiles, srcFiles, stepOfEntry, applyStep,
      configureProject, readJsonFile, readTextFile, fsSet, existsSync,
      emptyFS, failOn, resolvePath, writeJsonEntry, WriteStep.op]
  · intro fails fs d h1 h2 h3
    simp only [resolvePath] at h1 h2 h3
    simp [configureProject, readJsonFile, resolvePath, h1, h2, h3]
  · intro fails fs d h1 h2 h3 h4 h5
    simp only [resolvePath] at h1 h2 h3 h4 h5
    simp [configureProject, readJsonFile, existsSync, fsSet, resolvePath,
      h1, h2, h3, h4, h5, writeJsonEntry]
  · simp [createApp, createProject, createBasicTemplate, runSteps,
      templateSteps, templateFiles, srcFiles, stepOfEntry, applyStep,
      configureProject, readJsonFile, readTextFile, fsSet, existsSync,
      emptyFS, failOn, resolvePath, writeJsonEntry, WriteStep.op]
  · intro fails fs0 h1 h2 h3
    rcases hT : createBasicTemplate fails (fsSet fs0 (resolvePath cwd n) .dir)
      (resolvePath cwd n) n with ⟨fs2, b⟩
    rw [hT] at h2 h3
    simp only at h2 h3
    subst h2
    rcases hC : configureProject fails fs2 (resolvePath cwd n) n key
      with ⟨fs3, b2⟩
    rw [hC] at h3
    simp only at h3
    subst h3
    simp [createProject, h1, hT, hC]
  · intro fs d h1 h2
    simp only [resolvePath] at h1 h2
    simp [configureProject, noFaults, readJsonFile, readTextFile, existsSync,
      fsSet, resolvePath, h1, h2, writeJsonEntry]

/-- Witness for C3 (amended) at concrete inputs: all four faults of the
patch phase fail it, a failed phase is fatal end to end, and with
`package.json` present but no `.env.example` the phase succeeds, patching
only the name. -/
theorem metadataPatch_fatality_witness :
    ((createApp emptyFS "/w" "app" none false (fun _ => false)
        (failOn (.readJson (pathJoin (resolvePath "/w" "app") "package.json")))).outcome =
      Outcome.fatalExit 1) ∧
    (failOn (.writeJson (pathJoin (resolvePath "/w" "app") "package.json"))
        (.readJson (pathJoin (resolvePath "/w" "app") "package.json")) = false ∧
     failOn (.writeJson (pathJoin (resolvePath "/w" "app") "package.json"))
        (.writeJson (pathJoin (resolvePath "/w" "app") "package.json")) = true ∧
     configureProject
        (failOn (.writeJson (pathJoin (resolvePath "/w" "app") "package.json")))
        (fsSet emptyFS (pathJoin (resolvePath "/w" "app") "package.json")
          (writeJsonEntry ⟨"tpl", pkgOtherFields⟩))
        (resolvePath "/w" "app") "app" none =
      (fsSet emptyFS (pathJoin (resolvePath "/w" "app") "package.json")
        (writeJsonEntry ⟨"tpl", pkgOtherFields⟩), false)) ∧
    (failOn (.readFile (pathJoin (resolvePath "/w" "app") ".env.example"))
        (.readFile (pathJoin (resolvePath "/w" "app") ".env.example")) = true ∧
     configureProject
        (failOn (.readFile (pathJoin (resolvePath "/w" "app") ".env.example")))
        (fsSet (fsSet emptyFS (pathJoin (resolvePath "/w" "app") "package.json")
            (writeJsonEntry ⟨"tpl", pkgOtherFields⟩))
          (pathJoin (resolvePath "/w" "app") ".env.example")
          (.file (.text envExampleContent)))
        (resolvePath "/w" "app") "app" (some "sk") =
      (fsSet (fsSet (fsSet emptyFS
            (pathJoin (resolvePath "/w" "app") "package.json")
            (writeJsonEntry ⟨"tpl", pkgOtherFields⟩))
          (pathJoin (resolvePath "/w" "app") ".env.example")
          (.file (.text envExampleContent)))
        (pathJoin (resolvePath "/w" "app") "package.json")
        (writeJsonEntry ⟨"app", pkgOtherFields⟩), false)) ∧
    ((createApp emptyFS "/w" "app" (some "sk") false (fun _ => false)
        (failOn (.writeFile (pathJoin (resolvePath "/w" "app") ".env")))).outcome =
      Outcome.fatalExit 1) ∧
    ((createBasicTemplate
        (failOn (.readJson (pathJoin (resolvePath "/w" "app") "package.json")))
        (fsSet emptyFS (resolvePath "/w" "app") .dir)
        (resolvePath "/w" "app") "app").2 = true ∧
     (configureProject
        (failOn (.readJson (pathJoin (resolvePath "/w" "app") "package.json")))
        (createBasicTemplate
          (failOn (.readJson (pathJoin (resolvePath "/w" "app") "package.json")))
          (fsSet emptyFS (resolvePath "/w" "app") .dir)
          (resolvePath "/w" "app") "app").1
        (resolvePath "/w" "app") "app" none).2 = false ∧
     (createProject
        (failOn (.readJson (pathJoin (resolvePath "/w" "app") "package.json")))
        emptyFS (resolvePath "/w" "app") "app" none false
        (fun _ => false)).outcome = Outcome.fatalExit 1) ∧
    ((fsSet emptyFS (pathJoin (resolvePath "/w" "app") "package.json")
        (writeJsonEntry ⟨"tpl", pkgOtherFields⟩))
        (pathJoin (resolvePath "/w" "app") ".env.example") = none ∧
     configureProject noFaults
        (fsSet emptyFS (pathJoin (resolvePath "/w" "app") "package.json")
          (writeJsonEntry ⟨"tpl", pkgOtherFields⟩))
        (resolvePath "/w" "app") "app" (some "sk") =
      (fsSet (fsSet emptyFS (pathJoin (resolvePath "/w" "app") "package.json")
          (writeJsonEntry ⟨"tpl", pkgOtherFields⟩))
        (pathJoin (resolvePath "/w" "app") "package.json")
        (writeJsonEntry ⟨"app", pkgOtherFields⟩), true)) :=
  ⟨(metadataPatch_fatality "/w" "app" "sk" none false (fun _ => false)).1,
   ⟨by decide, by decide,
    (metadataPatch_fatality "/w" "app" "sk" none false (fun _ => false)).2.1
      (failOn (.writeJson (pathJoin (resolvePath "/w" "app") "package.json")))
      (fsSet emptyFS (pathJoin (resolvePath "/w" "app") "package.json")
        (writeJsonEntry ⟨"tpl", pkgOtherFields⟩)) ⟨"tpl", pkgOtherFields⟩
      (by decide) (by decide) (by decide)⟩,
   ⟨by decide,
    (metadataPatch_fatality "/w" "app" "sk" none false (fun _ => false)).2.2.1
      (failOn (.readFile (pathJoin (resolvePath "/w" "app") ".env.example")))
      (fsSet (fsSet emptyFS (pathJoin (resolvePath "/w" "app") "package.json")
          (writeJsonEntry ⟨"tpl", pkgOtherFields⟩))
        (pathJoin (resolvePath "/w" "app") ".env.example")
        (.file (.text envExampleContent))) ⟨"tpl", pkgOtherFields⟩
      (by decide) (by decide) (by decide) (by decide) (by decide)⟩,
   (metadataPatch_fatality "/w" "app" "sk" none false (fun _ => false)).2.2.2.1,
   ⟨by decide, by decide,
    (metadataPatch_fatality "/w" "app" "sk" none false (fun _ => false)).2.2.2.2.1
      (failOn (.readJson (pathJoin (resolvePath "/w" "app") "package.json")))
      emptyFS (by decide) (by decide) (by decide)⟩,
   ⟨by decide,
    (metadataPatch_fatality "/w" "app" "sk" none false (fun _ => false)).2.2.2.2.2
      (fsSet emptyFS (pathJoin (resolvePath "/w" "app") "package.json")
        (writeJsonEntry ⟨"tpl", pkgOtherFields⟩)) ⟨"tpl", pkgOtherFields⟩
      (by decide) (by decide)⟩⟩

/-- C4 counterexample: with a secret that itself contains the placeholder
token (here the placeholder itself), the written `.env` still contains
the placeholder; and with the secret `$&`, JavaScript replace substitutes
the matched text for `$&`, so the placeholder survives although the
secret contains no placeholder token and the placeholder occurrence was
not replaced by the secret.  Both refute the claim's "replaced by the
secret, with no trace of the placeholder remaining". -/
theorem secretPlaceholder_trace_cex :
    ((createApp emptyFS "/w" "app" (some "your_groq_api_key_here") false
        (fun _ => false) noFaults).fs (pathJoin (resolvePath "/w" "app") ".env") =
      some (.file (.text "GROQ_API_KEY=your_groq_api_key_here")) ∧
     hasSub placeholderTok.data
      ("GROQ_API_KEY=your_groq_api_key_here" : String).data = true) ∧
    ((createApp emptyFS "/w" "app" (some "$&") false
        (fun _ => false) noFaults).fs (pathJoin (resolvePath "/w" "app") ".env") =
      some (.file (.text "GROQ_API_KEY=your_groq_api_key_here")) ∧
     hasSub placeholderTok.data (("$&" : String)).data = false) := by
  refine ⟨⟨?_, ?_⟩, ?_, ?_⟩
  · decide
  · decide
  · decide
  · decide

/-- C4 (amended): if the secret is absent the generated secret-template
file still contains its original placeholder value after the run; if the
secret is present, the substitution follows JavaScript replace semantics:
provided the secret contains no dollar substitution pattern, the one
occurrence of the placeholder in the generated secret file is replaced by
the secret, and — provided additionally the secret itself does not
contain the placeholder token — no trace of the placeholder remains. -/
theorem secretPatch_placeholder (k : String) :
    ((createApp emptyFS "/w" "app" none false (fun _ => false) noFaults).fs
        (pathJoin (resolvePath "/w" "app") ".env.example") =
      some (.file (.text envExampleContent)) ∧
     hasSub placeholderTok.data envExampleContent.data = true) ∧
    (hasDollarPattern k.data = false →
      (createApp emptyFS "/w" "app" (some k) false (fun _ => false)
        noFaults).fs (pathJoin (resolvePath "/w" "app") ".env") =
      some (.file (.text ("GROQ_API_KEY=" ++ k)))) ∧
    (hasSub placeholderTok.data k.data = false →
      hasSub placeholderTok.data (("GROQ_API_KEY=" ++ k) : String).data = false) := by
  refine ⟨⟨by decide, by decide⟩, ?_, ?_⟩
  · intro hd
    have he := envReplace_eq k hd
    simp [createApp, createProject, createBasicTemplate, runSteps,
      templateSteps, templateFiles, srcFiles, stepOfEntry, applyStep,
      configureProject, readJsonFile, readTextFile, fsSet, existsSync,
      emptyFS, noFaults, resolvePath, writeJsonEntry, he]
  · intro h
    rw [String.data_append]
    rw [show placeholderTok.data = 'y' :: ("our_groq_api_key_here" : String).data
      from rfl] at h ⊢
    exact hasSub_append_of_head 'y' ("our_groq_api_key_here" : String).data
      ("GROQ_API_KEY=" : String).data k.data (by decide) h

/-- Witness for C4 (amended) with the concrete secret `sk-test-123`,
which contains neither a dollar substitution pattern nor the
placeholder. -/
theorem secretPatch_placeholder_witness :
    hasDollarPattern ("sk-test-123" : String).data = false ∧
    hasSub placeholderTok.data ("sk-test-123" : String).data = false ∧
    ((createApp emptyFS "/w" "app" (some "sk-test-123") false (fun _ => false)
        noFaults).fs (pathJoin (resolvePath "/w" "app") ".env") =
      some (.file (.text ("GROQ_API_KEY=" ++ "sk-test-123")))) ∧
    hasSub placeholderTok.data
      (("GROQ_API_KEY=" ++ "sk-test-123") : String).data = false :=
  ⟨by decide, by decide, (secretPatch_placeholder "sk-test-123").2.1 (by decide),
    (secretPatch_placeholder "sk-test-123").2.2 (by decide)⟩

/-- C7: after materialization and the name patch, for any name `n` the
metadata file holds exactly the record whose `name` field is `n`, written
through `writeJsonEntry` — the same fixed-indent-2 structured
serialization rule the materializer uses. -/
theorem patchName_metadata (cwd n : String) (key : Option String)
    (exec : String → Bool) :
    (createApp emptyFS cwd n key false exec noFaults).fs
        (pathJoin (resolvePath cwd n) "package.json") =
      some (.file (.structured ⟨n, pkgOtherFields⟩ 2)) ∧
    FsEntry.file (.structured ⟨n, pkgOtherFields⟩ 2) =
      writeJsonEntry ⟨n, pkgOtherFields⟩ := by
  constructor
  · cases key <;>
      simp [createApp, createProject, createBasicTemplate, runSteps,
        templateSteps, templateFiles, srcFiles, stepOfEntry, applyStep,
        configureProject, readJsonFile, readTextFile, fsSet, existsSync,
        emptyFS, noFaults, resolvePath, writeJsonEntry]
  · rfl

/-- C10: the secret patch never mutates the materialized secret-template
file — with a secret supplied, `.env.example` still holds exactly the
template payload while the resolved content goes to the separate new
`.env` file; with no secret supplied, no `.env` file is created at
all. -/
theorem secretPatch_frame (cwd n k : String) (exec : String → Bool) :
    (createApp emptyFS cwd n (some k) false exec noFaults).fs
        (pathJoin (resolvePath cwd n) ".env.example") =
      some (.file (.text envExampleContent)) ∧
    (createApp emptyFS cwd n (some k) false exec noFaults).fs
        (pathJoin (resolvePath cwd n) ".env") =
      some (.file (.text (jsReplace envExampleContent
        "your_groq_api_key_here" k))) ∧
    (createApp emptyFS cwd n none false exec noFaults).fs
        (pathJoin (resolvePath cwd n) ".env") = none := by
  refine ⟨?_, ?_, ?_⟩ <;>
    simp [createApp, createProject, createBasicTemplate, runSteps,
      templateSteps, templateFiles, srcFiles, stepOfEntry, applyStep,
      configureProject, readJsonFile, readTextFile, fsSet, existsSync,
      emptyFS, noFaults, resolvePath, writeJsonEntry]

end AlithCli
